import Mathlib

/-!
Verification of the Grievance Store (`src/grievance_cli.py`).

The store keeps a single collection of grievance records persisted in a
JSON file.  Each public operation performs a full load → mutate → save
cycle.  We embed the collection as a `List Grievance`; each operation
takes the loaded collection and returns
`Option (List Grievance) × result`, where the first component is
`some gs'` exactly when the Python function calls `save_grievances gs'`
and `none` when it returns without saving (so the persisted collection
after the call is `(·.getD gs)` of it).
-/

/-- Python `str.strip()`: remove leading and trailing whitespace. -/
def strip (s : String) : String :=
  ((s.data.dropWhile Char.isWhitespace).reverse.dropWhile
    Char.isWhitespace).reverse.asString

/-- A grievance record, mirroring the dictionary built by `add_grievance`:
id, title, description, author, status, upvotes, downvotes, created_at. -/
structure Grievance where
  id : Nat
  title : String
  description : String
  author : String
  status : String
  upvotes : Nat
  downvotes : Nat
  created_at : String
deriving Repr, DecidableEq

/-- The possible outcomes of parsing the persisted JSON file: a JSON list
of records, some other JSON value (object, string, number, bool, null). -/
inductive JsonValue where
  | jlist (items : List Grievance)
  | jobject
  | jstring (s : String)
  | jnumber (n : Int)
  | jbool (b : Bool)
  | jnull
deriving Repr, DecidableEq

/-- `load_grievances`: `json.load` either raises `JSONDecodeError`
(modelled as `Except.error`) or yields a value; the code returns the value
if it `isinstance(data, list)` and `[]` otherwise, and returns `[]` on a
decode error. -/
def load_grievances : Except String JsonValue → List Grievance
  | .error _ => []
  | .ok (.jlist items) => items
  | .ok _ => []

/-- `generate_next_id`: `1` if the list is empty, otherwise the highest
existing id plus one (`max(g.get("id", 0) for g in grievances) + 1`). -/
def generate_next_id (grievances : List Grievance) : Nat :=
  if grievances.isEmpty then 1
  else (grievances.map (fun g => g.id)).foldl Nat.max 0 + 1

/-- `find_grievance`: linear scan returning the first record with the
matching id, or `None`. -/
def find_grievance (grievances : List Grievance) (grievance_id : Nat) :
    Option Grievance :=
  grievances.find? (fun g => g.id == grievance_id)

/-- Outcome of `add_grievance` as reported to the user. -/
inductive AddResult where
  | validationError
  | added (g : Grievance)
deriving Repr, DecidableEq

/-- Outcome of `vote_grievance` / `resolve_grievance` / `delete_grievance`. -/
inductive OpResult where
  | notFound
  | ok
deriving Repr, DecidableEq

/-- `add_grievance`: strips the three fields, aborts with a validation
error (no save) if any is empty, else appends a fresh record with the
next id, status "open", zero votes and the current timestamp `now`, and
saves. -/
def add_grievance (grievances : List Grievance)
    (title description author : String) (now : String) :
    Option (List Grievance) × AddResult :=
  let title := strip title
  let description := strip description
  let author := strip author
  if title = "" ∨ description = "" ∨ author = "" then
    (none, .validationError)
  else
    let grievance : Grievance :=
      { id := generate_next_id grievances
        title := title
        description := description
        author := author
        status := "open"
        upvotes := 0
        downvotes := 0
        created_at := now }
    (some (grievances ++ [grievance]), .added grievance)

/-- In Python, `vote_grievance` and `resolve_grievance` mutate in place the
record returned by `find_grievance` — the first record with the matching
id.  `updateFirst p f` rewrites the first element satisfying `p`. -/
def updateFirst (p : Grievance → Bool) (f : Grievance → Grievance) :
    List Grievance → List Grievance
  | [] => []
  | g :: gs => if p g then f g :: gs else g :: updateFirst p f gs

/-- `vote_grievance`: not-found ids are reported without saving; otherwise
`vote_type == "up"` increments `upvotes` and any other string increments
`downvotes`, and the collection is saved. -/
def vote_grievance (grievances : List Grievance) (grievance_id : Nat)
    (vote_type : String) : Option (List Grievance) × OpResult :=
  match find_grievance grievances grievance_id with
  | none => (none, .notFound)
  | some _ =>
    let bump : Grievance → Grievance := fun g =>
      if vote_type = "up" then { g with upvotes := g.upvotes + 1 }
      else { g with downvotes := g.downvotes + 1 }
    (some (updateFirst (fun g => g.id == grievance_id) bump grievances), .ok)

/-- `resolve_grievance`: not-found ids are reported without saving;
otherwise the record's status is set to "resolved" and the collection is
saved. -/
def resolve_grievance (grievances : List Grievance) (grievance_id : Nat) :
    Option (List Grievance) × OpResult :=
  match find_grievance grievances grievance_id with
  | none => (none, .notFound)
  | some _ =>
    (some (updateFirst (fun g => g.id == grievance_id)
      (fun g => { g with status := "resolved" }) grievances), .ok)

/-- `delete_grievance`: filters out records with the matching id; if the
length is unchanged nothing matched and it reports not-found without
saving, else it saves the filtered list. -/
def delete_grievance (grievances : List Grievance) (grievance_id : Nat) :
    Option (List Grievance) × OpResult :=
  let remaining := grievances.filter (fun g => g.id != grievance_id)
  if remaining.length = grievances.length then
    (none, .notFound)
  else
    (some remaining, .ok)

/-- A grievance's vote score: `upvotes - downvotes`. -/
def score (g : Grievance) : Int := (g.upvotes : Int) - (g.downvotes : Int)

/-- `list_grievances`: keeps records whose status equals the filter (a
falsy filter — `None` or the empty string — keeps everything), then sorts
by score descending when `sort_key == "votes"` and by `created_at`
ascending otherwise, using a stable sort as Python `list.sort` does.
Purely a view: it never calls `save_grievances`. -/
def list_grievances (grievances : List Grievance)
    (status_filter : Option String) (sort_key : String) : List Grievance :=
  let gs := match status_filter with
    | some s => if s = "" then grievances
                else grievances.filter (fun g => g.status == s)
    | none => grievances
  if sort_key = "votes" then
    gs.mergeSort (fun a b => decide (score b ≤ score a))
  else
    gs.mergeSort (fun a b => decide (a.created_at.data ≤ b.created_at.data))

/-- `show_grievance`: a pure view of `find_grievance`; never saves. -/
def show_grievance (grievances : List Grievance) (grievance_id : Nat) :
    Option Grievance :=
  find_grievance grievances grievance_id

/-- One user-level operation on the store, as dispatched by the menu. -/
inductive Cmd where
  | add (title description author now : String)
  | vote (grievance_id : Nat) (vote_type : String)
  | resolve (grievance_id : Nat)
  | delete (grievance_id : Nat)
  | list (status_filter : Option String) (sort_key : String)
  | showOp (grievance_id : Nat)
deriving Repr, DecidableEq

/-- The persisted collection after one operation: the saved collection if
the operation saved, the previous one otherwise (`list` and `show` never
save). -/
def step (gs : List Grievance) : Cmd → List Grievance
  | .add t d a n => ((add_grievance gs t d a n).1).getD gs
  | .vote i v => ((vote_grievance gs i v).1).getD gs
  | .resolve i => ((resolve_grievance gs i).1).getD gs
  | .delete i => ((delete_grievance gs i).1).getD gs
  | .list _ _ => gs
  | .showOp _ => gs

/-- The persisted collection reached from empty storage by a sequence of
operations. -/
def run (cmds : List Cmd) : List Grievance := cmds.foldl step []

/-- The records selected by a status filter, as the spec describes `list`:
all grievances when no filter is given, else exactly those whose status
equals the filter. -/
def statusFiltered (gs : List Grievance) : Option String → List Grievance
  | none => gs
  | some s => gs.filter (fun g => g.status == s)

/-- The collection invariant: record ids strictly increase along the list
(in particular they are unique). -/
def IdsSorted (gs : List Grievance) : Prop :=
  gs.Pairwise (fun a b => a.id < b.id)

/-- Sample record used to instantiate theorems at concrete inputs. -/
def sampleA : Grievance where
  id := 1
  title := "Noisy AC"
  description := "AC unit in room 4 buzzes loudly"
  author := "J. Doe"
  status := "open"
  upvotes := 0
  downvotes := 0
  created_at := "2024-01-01T09:00:00"

/-- A second sample record with a higher id and a different status. -/
def sampleB : Grievance where
  id := 2
  title := "Cold water"
  description := "No hot water in dorm B"
  author := "A. Poe"
  status := "resolved"
  upvotes := 3
  downvotes := 1
  created_at := "2024-01-02T09:00:00"

/-- `sampleA` after one upvote. -/
def sampleA_up : Grievance where
  id := 1
  title := "Noisy AC"
  description := "AC unit in room 4 buzzes loudly"
  author := "J. Doe"
  status := "open"
  upvotes := 1
  downvotes := 0
  created_at := "2024-01-01T09:00:00"

/-- `sampleA` after one upvote and one downvote. -/
def sampleA_updown : Grievance where
  id := 1
  title := "Noisy AC"
  description := "AC unit in room 4 buzzes loudly"
  author := "J. Doe"
  status := "open"
  upvotes := 1
  downvotes := 1
  created_at := "2024-01-01T09:00:00"

/-- `sampleA` after one downvote. -/
def sampleA_down : Grievance where
  id := 1
  title := "Noisy AC"
  description := "AC unit in room 4 buzzes loudly"
  author := "J. Doe"
  status := "open"
  upvotes := 0
  downvotes := 1
  created_at := "2024-01-01T09:00:00"

/-- `sampleA` once resolved. -/
def sampleA_resolved : Grievance where
  id := 1
  title := "Noisy AC"
  description := "AC unit in room 4 buzzes loudly"
  author := "J. Doe"
  status := "resolved"
  upvotes := 0
  downvotes := 0
  created_at := "2024-01-01T09:00:00"

/-! ### Helper lemmas -/

theorem le_foldl_max (l : List Nat) (a : Nat) : a ≤ l.foldl Nat.max a := by
  induction l generalizing a with
  | nil => exact Nat.le_refl a
  | cons x xs ih =>
    exact Nat.le_trans (Nat.le_max_left a x) (ih (Nat.max a x))

theorem mem_le_foldl_max (l : List Nat) : ∀ a x, x ∈ l → x ≤ l.foldl Nat.max a := by
  induction l with
  | nil => intro _ _ hx; cases hx
  | cons y ys ih =>
    intro a x hx
    rcases List.mem_cons.mp hx with h | h
    · subst h
      exact Nat.le_trans (Nat.le_max_right a x) (le_foldl_max ys (Nat.max a x))
    · exact ih (Nat.max a y) x h

theorem nat_max_choice (a b : Nat) : Nat.max a b = a ∨ Nat.max a b = b := by
  by_cases h : a ≤ b
  · exact Or.inr (Nat.max_eq_right h)
  · exact Or.inl (Nat.max_eq_left (Nat.le_of_not_le h))

theorem foldl_max_mem (l : List Nat) : ∀ a,
    l.foldl Nat.max a ∈ l ∨ l.foldl Nat.max a = a := by
  induction l with
  | nil => intro _; exact Or.inr rfl
  | cons x xs ih =>
    intro a
    rcases ih (Nat.max a x) with h | h
    · exact Or.inl (List.mem_cons_of_mem x h)
    · rcases nat_max_choice a x with hm | hm
      · exact Or.inr (h.trans hm)
      · refine Or.inl ?_
        simp only [List.foldl_cons]
        rw [h.trans hm]
        exact List.mem_cons_self x xs

/-- Every id in the collection is strictly below the next generated id. -/
theorem id_lt_generate_next_id (gs : List Grievance) (g : Grievance)
    (hg : g ∈ gs) : g.id < generate_next_id gs := by
  have hne : gs.isEmpty = false := by
    cases gs with
    | nil => cases hg
    | cons x xs => rfl
  unfold generate_next_id
  rw [hne]
  simp only [Bool.false_eq_true, if_false]
  have : g.id ≤ (gs.map (fun g => g.id)).foldl Nat.max 0 :=
    mem_le_foldl_max _ 0 g.id (List.mem_map_of_mem _ hg)
  omega

/-- On a nonempty collection the next id is one more than an id present in
the collection (the maximal one). -/
theorem generate_next_id_eq_max_succ (gs : List Grievance) (hne : gs ≠ []) :
    ∃ g ∈ gs, generate_next_id gs = g.id + 1 := by
  have hne' : gs.isEmpty = false := by
    cases gs with
    | nil => exact absurd rfl hne
    | cons x xs => rfl
  unfold generate_next_id
  rw [hne']
  simp only [Bool.false_eq_true, if_false]
  rcases foldl_max_mem (gs.map (fun g => g.id)) 0 with h | h
  · rcases List.mem_map.mp h with ⟨g, hg, hgid⟩
    exact ⟨g, hg, by omega⟩
  · cases gs with
    | nil => exact absurd rfl hne
    | cons x xs =>
      refine ⟨x, List.mem_cons_self x xs, ?_⟩
      have hx : x.id ≤ ((x :: xs).map (fun g => g.id)).foldl Nat.max 0 :=
        mem_le_foldl_max _ 0 x.id (List.mem_map_of_mem _ (List.mem_cons_self x xs))
      omega

theorem updateFirst_map_id (p : Grievance → Bool) (f : Grievance → Grievance)
    (hid : ∀ x, (f x).id = x.id) (gs : List Grievance) :
    (updateFirst p f gs).map Grievance.id = gs.map Grievance.id := by
  induction gs with
  | nil => rfl
  | cons x xs ih =>
    unfold updateFirst
    by_cases hx : p x
    · simp [hx, hid x]
    · simp [hx, ih]

theorem updateFirst_length (p : Grievance → Bool) (f : Grievance → Grievance)
    (gs : List Grievance) : (updateFirst p f gs).length = gs.length := by
  induction gs with
  | nil => rfl
  | cons x xs ih =>
    unfold updateFirst
    by_cases hx : p x <;> simp [hx, ih]

theorem find?_updateFirst_self (p : Grievance → Bool)
    (f : Grievance → Grievance) (hp : ∀ x, p x → p (f x))
    (gs : List Grievance) (g : Grievance) (hf : gs.find? p = some g) :
    (updateFirst p f gs).find? p = some (f g) := by
  induction gs with
  | nil => cases hf
  | cons x xs ih =>
    by_cases hx : p x
    · rw [List.find?_cons_of_pos _ hx] at hf
      cases hf
      unfold updateFirst
      rw [if_pos hx]
      exact List.find?_cons_of_pos _ (hp g hx)
    · rw [List.find?_cons_of_neg _ hx] at hf
      unfold updateFirst
      rw [if_neg hx, List.find?_cons_of_neg _ hx]
      exact ih hf

theorem find_grievance_updateFirst_other (i j : Nat) (hij : j ≠ i)
    (f : Grievance → Grievance) (hid : ∀ x, (f x).id = x.id)
    (gs : List Grievance) :
    find_grievance (updateFirst (fun g => g.id == i) f gs) j =
      find_grievance gs j := by
  induction gs with
  | nil => rfl
  | cons x xs ih =>
    unfold updateFirst
    by_cases hx : x.id = i
    · rw [if_pos (by simpa using hx)]
      have h1 : ((f x).id == j) = false := by
        simp [hid x, hx, Ne.symm hij]
      have h2 : (x.id == j) = false := by
        simp [hx, Ne.symm hij]
      unfold find_grievance
      rw [List.find?_cons, List.find?_cons, h1, h2]
    · rw [if_neg (by simpa using hx)]
      unfold find_grievance at ih ⊢
      rw [List.find?_cons, List.find?_cons]
      cases hxj : (x.id == j) <;> simp [ih]


theorem updateFirst_cons (p : Grievance → Bool) (f : Grievance → Grievance)
    (x : Grievance) (xs : List Grievance) :
    updateFirst p f (x :: xs) = if p x then f x :: xs else x :: updateFirst p f xs :=
  rfl

theorem updateFirst_idem (p : Grievance → Bool) (f : Grievance → Grievance)
    (hp : ∀ x, p x → p (f x)) (hf : ∀ x, f (f x) = f x)
    (gs : List Grievance) :
    updateFirst p f (updateFirst p f gs) = updateFirst p f gs := by
  induction gs with
  | nil => rfl
  | cons x xs ih =>
    rw [updateFirst_cons]
    by_cases hx : p x
    · rw [if_pos hx, updateFirst_cons, if_pos (hp x hx), hf x]
    · rw [if_neg hx, updateFirst_cons, if_neg hx, ih]

theorem length_filter_eq_iff_all (p : Grievance → Bool) (gs : List Grievance) :
    (gs.filter p).length = gs.length ↔ ∀ g ∈ gs, p g := by
  constructor
  · intro h
    have heq : gs.filter p = gs :=
      (List.filter_sublist gs).eq_of_length h
    exact List.filter_eq_self.mp heq
  · intro h
    rw [List.filter_eq_self.mpr h]

/-- A not-found id means the deletion filter keeps everything. -/
theorem find_none_filter_eq (gs : List Grievance) (i : Nat)
    (h : find_grievance gs i = none) :
    gs.filter (fun g => g.id != i) = gs := by
  refine List.filter_eq_self.mpr ?_
  intro g hg
  have := List.find?_eq_none.mp h g hg
  simpa using this

/-- After the deletion filter, the id is gone. -/
theorem find_filter_ne_none (gs : List Grievance) (i : Nat) :
    find_grievance (gs.filter (fun g => g.id != i)) i = none := by
  refine List.find?_eq_none.mpr ?_
  intro g hg
  have := (List.mem_filter.mp hg).2
  simpa using this

theorem idsSorted_updateFirst (p : Grievance → Bool)
    (f : Grievance → Grievance) (hid : ∀ x, (f x).id = x.id)
    (gs : List Grievance) (h : IdsSorted gs) :
    IdsSorted (updateFirst p f gs) := by
  have hmap := updateFirst_map_id p f hid gs
  have h' : ((gs.map Grievance.id).Pairwise (· < ·)) :=
    List.pairwise_map.mpr h
  rw [← hmap] at h'
  exact List.pairwise_map.mp h'

theorem step_idsSorted (gs : List Grievance) (c : Cmd) (h : IdsSorted gs) :
    IdsSorted (step gs c) := by
  cases c with
  | add t d a n =>
    simp only [step, add_grievance]
    by_cases hv : strip t = "" ∨ strip d = "" ∨ strip a = ""
    · rw [if_pos hv]
      exact h
    · rw [if_neg hv]
      simp only [Option.getD_some]
      refine List.pairwise_append.mpr ⟨h, List.pairwise_singleton _ _, ?_⟩
      intro x hx b hb
      rcases List.mem_singleton.mp hb with rfl
      exact id_lt_generate_next_id gs x hx
  | vote i v =>
    simp only [step, vote_grievance]
    cases hfind : find_grievance gs i with
    | none => simpa [hfind] using h
    | some g =>
      simp only [hfind, Option.getD_some]
      refine idsSorted_updateFirst _ _ (fun x => ?_) gs h
      by_cases hv : v = "up" <;> simp [hv]
  | resolve i =>
    simp only [step, resolve_grievance]
    cases hfind : find_grievance gs i with
    | none => simpa [hfind] using h
    | some g =>
      simp only [hfind, Option.getD_some]
      exact idsSorted_updateFirst (fun g => g.id == i)
        (fun g => { g with status := "resolved" }) (fun x => rfl) gs h
  | delete i =>
    simp only [step, delete_grievance]
    by_cases hl : (gs.filter (fun g => g.id != i)).length = gs.length
    · rw [if_pos hl]
      exact h
    · rw [if_neg hl]
      exact List.Pairwise.sublist (List.filter_sublist gs) h
  | list filt k => exact h
  | showOp i => exact h

theorem foldl_step_idsSorted (cmds : List Cmd) : ∀ gs, IdsSorted gs →
    IdsSorted (cmds.foldl step gs) := by
  induction cmds with
  | nil => intro gs hgs; exact hgs
  | cons c cs ih =>
    intro gs hgs
    exact ih (step gs c) (step_idsSorted gs c hgs)

/-- Every reachable collection has strictly increasing (hence unique) ids. -/
theorem run_idsSorted (cmds : List Cmd) : IdsSorted (run cmds) :=
  foldl_step_idsSorted cmds [] List.Pairwise.nil

/-- Unfolding `vote_grievance` on a present id. -/
theorem vote_grievance_found (gs : List Grievance) (i : Nat) (d : String)
    (g : Grievance) (hf : find_grievance gs i = some g) :
    vote_grievance gs i d =
      (some (updateFirst (fun x => x.id == i)
        (fun x => if d = "up" then { x with upvotes := x.upvotes + 1 }
          else { x with downvotes := x.downvotes + 1 }) gs), .ok) := by
  simp only [vote_grievance, hf]

/-- Unfolding `resolve_grievance` on a present id. -/
theorem resolve_grievance_found (gs : List Grievance) (i : Nat)
    (g : Grievance) (hf : find_grievance gs i = some g) :
    resolve_grievance gs i =
      (some (updateFirst (fun x => x.id == i)
        (fun x => { x with status := "resolved" }) gs), .ok) := by
  simp only [resolve_grievance, hf]

/-- The deletion filter keeps every element iff the id is absent. -/
theorem delete_length_iff_find_none (gs : List Grievance) (i : Nat) :
    (gs.filter (fun g => g.id != i)).length = gs.length ↔
      find_grievance gs i = none := by
  rw [length_filter_eq_iff_all]
  unfold find_grievance
  rw [List.find?_eq_none]
  constructor
  · intro h x hx
    have := h x hx
    simpa using this
  · intro h x hx
    have := h x hx
    simpa using this

/-! ### Claims -/

/-- C2: for every id absent from the stored collection, `vote`, `resolve`
and `delete` each report not-found non-fatally, perform no save, and leave
the persisted collection exactly unchanged. -/
theorem C2_not_found_ops_unchanged (gs : List Grievance) (i : Nat)
    (d : String) (h : find_grievance gs i = none) :
    vote_grievance gs i d = (none, .notFound) ∧
    resolve_grievance gs i = (none, .notFound) ∧
    delete_grievance gs i = (none, .notFound) ∧
    step gs (.vote i d) = gs ∧
    step gs (.resolve i) = gs ∧
    step gs (.delete i) = gs := by
  have hlen : (gs.filter (fun g => g.id != i)).length = gs.length :=
    (delete_length_iff_find_none gs i).mpr h
  refine ⟨?_, ?_, ?_, ?_, ?_, ?_⟩
  · simp [vote_grievance, h]
  · simp [resolve_grievance, h]
  · simp [delete_grievance, hlen]
  · simp [step, vote_grievance, h]
  · simp [step, resolve_grievance, h]
  · simp [step, delete_grievance, hlen]

theorem C2_witness :
    vote_grievance [sampleA] 2 "down" = (none, .notFound) ∧
    resolve_grievance [sampleA] 2 = (none, .notFound) ∧
    delete_grievance [sampleA] 2 = (none, .notFound) ∧
    step [sampleA] (.vote 2 "down") = [sampleA] ∧
    step [sampleA] (.resolve 2) = [sampleA] ∧
    step [sampleA] (.delete 2) = [sampleA] :=
  C2_not_found_ops_unchanged [sampleA] 2 "down" (by decide)

/-- C3: if title, description or author is empty after trimming
whitespace, `add` fails with a validation error, creates no record, saves
nothing, and leaves the collection and the next computed id unchanged. -/
theorem C3_add_validation (gs : List Grievance) (t d a now : String)
    (h : strip t = "" ∨ strip d = "" ∨ strip a = "") :
    add_grievance gs t d a now = (none, .validationError) ∧
    step gs (.add t d a now) = gs ∧
    generate_next_id (step gs (.add t d a now)) = generate_next_id gs := by
  have h1 : add_grievance gs t d a now = (none, .validationError) := by
    simp only [add_grievance]
    rw [if_pos h]
  refine ⟨h1, ?_, ?_⟩ <;> simp [step, h1]

theorem C3_witness :
    add_grievance [sampleA] "" "desc" "author" "2024-01-03T09:00:00" =
      (none, .validationError) ∧
    step [sampleA] (.add "" "desc" "author" "2024-01-03T09:00:00") =
      [sampleA] ∧
    generate_next_id
        (step [sampleA] (.add "" "desc" "author" "2024-01-03T09:00:00")) =
      generate_next_id [sampleA] :=
  C3_add_validation [sampleA] "" "desc" "author" "2024-01-03T09:00:00"
    (Or.inl (by decide))

/-- C9: any persisted content that is not a well-formed encoded list —
whether unparseable text or a parseable non-list value — loads as the
empty collection rather than an error. -/
theorem C9_load_malformed (e : String) (v : JsonValue)
    (hv : ∀ items, v ≠ JsonValue.jlist items) :
    load_grievances (Except.error e) = [] ∧
    load_grievances (Except.ok v) = [] := by
  refine ⟨rfl, ?_⟩
  cases v with
  | jlist items => exact absurd rfl (hv items)
  | jobject => rfl
  | jstring s => rfl
  | jnumber n => rfl
  | jbool b => rfl
  | jnull => rfl

theorem C9_witness :
    load_grievances (Except.error "unparseable text") = [] ∧
    load_grievances (Except.ok JsonValue.jobject) = [] :=
  C9_load_malformed "unparseable text" JsonValue.jobject
    (fun _ h => JsonValue.noConfusion h)

/-- C5: `resolve` on a present id reports success and saves a collection
in which the record's status is "resolved"; resolving again succeeds and
leaves the collection identical (idempotent no-op success). -/
theorem C5_resolve_idempotent (gs : List Grievance) (i : Nat)
    (g : Grievance) (hf : find_grievance gs i = some g) :
    resolve_grievance gs i = (some (step gs (.resolve i)), .ok) ∧
    find_grievance (step gs (.resolve i)) i =
      some { g with status := "resolved" } ∧
    resolve_grievance (step gs (.resolve i)) i =
      (some (step gs (.resolve i)), .ok) ∧
    step (step gs (.resolve i)) (.resolve i) = step gs (.resolve i) := by
  have hstep : step gs (.resolve i) =
      updateFirst (fun x => x.id == i)
        (fun x => { x with status := "resolved" }) gs := by
    simp [step, resolve_grievance_found gs i g hf]
  have hfind : find_grievance (step gs (.resolve i)) i =
      some { g with status := "resolved" } := by
    rw [hstep]
    exact find?_updateFirst_self (fun x => x.id == i)
      (fun x => { x with status := "resolved" }) (fun x hx => hx) gs g hf
  have hidem : updateFirst (fun x => x.id == i)
      (fun x => { x with status := "resolved" })
      (step gs (.resolve i)) = step gs (.resolve i) := by
    rw [hstep]
    exact updateFirst_idem (fun x => x.id == i)
      (fun x => { x with status := "resolved" }) (fun x hx => hx)
      (fun x => rfl) gs
  have h2 : resolve_grievance (step gs (.resolve i)) i =
      (some (step gs (.resolve i)), .ok) := by
    rw [resolve_grievance_found (step gs (.resolve i)) i _ hfind, hidem]
  refine ⟨?_, hfind, h2, ?_⟩
  · rw [resolve_grievance_found gs i g hf, hstep]
  · have hs2 : step (step gs (.resolve i)) (.resolve i) =
        (resolve_grievance (step gs (.resolve i)) i).1.getD
          (step gs (.resolve i)) := rfl
    rw [hs2, h2]
    rfl

theorem C5_witness :
    resolve_grievance [sampleA] 1 = (some (step [sampleA] (.resolve 1)), .ok) ∧
    find_grievance (step [sampleA] (.resolve 1)) 1 = some sampleA_resolved ∧
    resolve_grievance (step [sampleA] (.resolve 1)) 1 =
      (some (step [sampleA] (.resolve 1)), .ok) ∧
    step (step [sampleA] (.resolve 1)) (.resolve 1) =
      step [sampleA] (.resolve 1) := by
  have h := C5_resolve_idempotent [sampleA] 1 sampleA (by decide)
  exact ⟨h.1, h.2.1.trans (by decide), h.2.2.1, h.2.2.2⟩

/-- C4: for a present id and direction in {up, down}, `vote` reports
success, saves, increments exactly the corresponding counter of the first
matching record by 1 leaving its other fields intact, and leaves every
other id's record unchanged. -/
theorem C4_vote_direction (gs : List Grievance) (i : Nat) (d : String)
    (g : Grievance) (hf : find_grievance gs i = some g)
    (hd : d = "up" ∨ d = "down") :
    vote_grievance gs i d = (some (step gs (.vote i d)), .ok) ∧
    find_grievance (step gs (.vote i d)) i =
      some { g with upvotes := g.upvotes + (if d = "up" then 1 else 0),
                    downvotes := g.downvotes + (if d = "up" then 0 else 1) } ∧
    (∀ j, j ≠ i → find_grievance (step gs (.vote i d)) j =
      find_grievance gs j) ∧
    (step gs (.vote i d)).length = gs.length := by
  have hstep : step gs (.vote i d) =
      updateFirst (fun x => x.id == i)
        (fun x => if d = "up" then { x with upvotes := x.upvotes + 1 }
          else { x with downvotes := x.downvotes + 1 }) gs := by
    simp [step, vote_grievance_found gs i d g hf]
  have hid : ∀ x : Grievance,
      ((if d = "up" then { x with upvotes := x.upvotes + 1 }
        else { x with downvotes := x.downvotes + 1 } : Grievance).id) = x.id := by
    intro x
    by_cases hv : d = "up" <;> simp [hv]
  have hp : ∀ x : Grievance, (x.id == i) = true →
      (((if d = "up" then { x with upvotes := x.upvotes + 1 }
        else { x with downvotes := x.downvotes + 1 } : Grievance).id) == i) = true := by
    intro x hx
    rw [hid x]
    exact hx
  have h5 : find_grievance (updateFirst (fun x => x.id == i)
      (fun x => if d = "up" then { x with upvotes := x.upvotes + 1 }
        else { x with downvotes := x.downvotes + 1 }) gs) i =
      some (if d = "up" then { g with upvotes := g.upvotes + 1 }
        else { g with downvotes := g.downvotes + 1 }) :=
    find?_updateFirst_self (fun x => x.id == i)
      (fun x => if d = "up" then { x with upvotes := x.upvotes + 1 }
        else { x with downvotes := x.downvotes + 1 }) hp gs g hf
  refine ⟨?_, ?_, ?_, ?_⟩
  · rw [vote_grievance_found gs i d g hf, hstep]
  · rw [hstep]
    refine h5.trans ?_
    by_cases hv : d = "up" <;> simp [hv]
  · intro j hj
    rw [hstep]
    exact find_grievance_updateFirst_other i j hj
      (fun x => if d = "up" then { x with upvotes := x.upvotes + 1 }
        else { x with downvotes := x.downvotes + 1 }) hid gs
  · rw [hstep, updateFirst_length]

theorem C4_witness :
    vote_grievance [sampleA] 1 "up" =
      (some (step [sampleA] (.vote 1 "up")), .ok) ∧
    find_grievance (step [sampleA] (.vote 1 "up")) 1 = some sampleA_up ∧
    find_grievance (step (step [sampleA] (.vote 1 "up")) (.vote 1 "down")) 1 =
      some sampleA_updown ∧
    (step [sampleA] (.vote 1 "up")).length = [sampleA].length := by
  have h1 := C4_vote_direction [sampleA] 1 "up" sampleA (by decide)
    (Or.inl rfl)
  have h2 := C4_vote_direction (step [sampleA] (.vote 1 "up")) 1 "down"
    sampleA_up (by decide) (Or.inr rfl)
  exact ⟨h1.1, h1.2.1.trans (by decide), h2.2.1.trans (by decide),
    h1.2.2.2⟩

/-- C10: for a present id and any direction string other than "up"
(including "UP" or "sideways"), `vote` does not reject the direction: it
reports success, saves, and increments the record's downvotes by exactly 1
leaving its upvotes (and all other fields) unchanged. -/
theorem C10_non_up_increments_downvotes (gs : List Grievance) (i : Nat)
    (d : String) (g : Grievance) (hf : find_grievance gs i = some g)
    (hd : d ≠ "up") :
    vote_grievance gs i d = (some (step gs (.vote i d)), .ok) ∧
    find_grievance (step gs (.vote i d)) i =
      some { g with downvotes := g.downvotes + 1 } ∧
    ∀ j, j ≠ i → find_grievance (step gs (.vote i d)) j =
      find_grievance gs j := by
  have hstep : step gs (.vote i d) =
      updateFirst (fun x => x.id == i)
        (fun x => if d = "up" then { x with upvotes := x.upvotes + 1 }
          else { x with downvotes := x.downvotes + 1 }) gs := by
    simp [step, vote_grievance_found gs i d g hf]
  have hid : ∀ x : Grievance,
      ((if d = "up" then { x with upvotes := x.upvotes + 1 }
        else { x with downvotes := x.downvotes + 1 } : Grievance).id) = x.id := by
    intro x
    simp [hd]
  have hp : ∀ x : Grievance, (x.id == i) = true →
      (((if d = "up" then { x with upvotes := x.upvotes + 1 }
        else { x with downvotes := x.downvotes + 1 } : Grievance).id) == i) = true := by
    intro x hx
    rw [hid x]
    exact hx
  have h5 : find_grievance (updateFirst (fun x => x.id == i)
      (fun x => if d = "up" then { x with upvotes := x.upvotes + 1 }
        else { x with downvotes := x.downvotes + 1 }) gs) i =
      some (if d = "up" then { g with upvotes := g.upvotes + 1 }
        else { g with downvotes := g.downvotes + 1 }) :=
    find?_updateFirst_self (fun x => x.id == i)
      (fun x => if d = "up" then { x with upvotes := x.upvotes + 1 }
        else { x with downvotes := x.downvotes + 1 }) hp gs g hf
  refine ⟨?_, ?_, ?_⟩
  · rw [vote_grievance_found gs i d g hf, hstep]
  · rw [hstep]
    refine h5.trans ?_
    simp [hd]
  · intro j hj
    rw [hstep]
    exact find_grievance_updateFirst_other i j hj
      (fun x => if d = "up" then { x with upvotes := x.upvotes + 1 }
        else { x with downvotes := x.downvotes + 1 }) hid gs

theorem C10_witness :
    vote_grievance [sampleA] 1 "sideways" =
      (some (step [sampleA] (.vote 1 "sideways")), .ok) ∧
    find_grievance (step [sampleA] (.vote 1 "sideways")) 1 =
      some sampleA_down ∧
    find_grievance (step [sampleA] (.vote 1 "UP")) 1 = some sampleA_down := by
  have h1 := C10_non_up_increments_downvotes [sampleA] 1 "sideways" sampleA
    (by decide) (by decide)
  have h2 := C10_non_up_increments_downvotes [sampleA] 1 "UP" sampleA
    (by decide) (by decide)
  exact ⟨h1.1, h1.2.1.trans (by decide), h2.2.1.trans (by decide)⟩

/-- C8: `delete` reports not-found exactly when no record has the id; on a
present id it saves the filtered collection, after which `find` returns
not-found and a second `delete` of the same id reports not-found
non-fatally without saving. -/
theorem C8_delete_remove (gs : List Grievance) (i : Nat) :
    ((delete_grievance gs i).2 = .notFound ↔ find_grievance gs i = none) ∧
    ∀ g, find_grievance gs i = some g →
      delete_grievance gs i = (some (step gs (.delete i)), .ok) ∧
      find_grievance (step gs (.delete i)) i = none ∧
      delete_grievance (step gs (.delete i)) i = (none, .notFound) := by
  constructor
  · by_cases hl : (gs.filter (fun g => g.id != i)).length = gs.length
    · constructor
      · intro _
        exact (delete_length_iff_find_none gs i).mp hl
      · intro _
        simp [delete_grievance, hl]
    · constructor
      · intro hcontra
        have : delete_grievance gs i =
            (some (gs.filter (fun g => g.id != i)), .ok) := by
          simp [delete_grievance, hl]
        rw [this] at hcontra
        cases hcontra
      · intro hfind
        exact absurd ((delete_length_iff_find_none gs i).mpr hfind) hl
  · intro g hfind
    have hl : ¬(gs.filter (fun x => x.id != i)).length = gs.length := by
      intro hl
      rw [(delete_length_iff_find_none gs i).mp hl] at hfind
      cases hfind
    have hdel : delete_grievance gs i =
        (some (gs.filter (fun x => x.id != i)), .ok) := by
      simp [delete_grievance, hl]
    have hstep : step gs (.delete i) = gs.filter (fun x => x.id != i) := by
      simp [step, hdel]
    have hgone : find_grievance (step gs (.delete i)) i = none := by
      rw [hstep]
      exact find_filter_ne_none gs i
    refine ⟨by rw [hdel, hstep], hgone, ?_⟩
    have hlen2 : ((step gs (.delete i)).filter
        (fun x => x.id != i)).length = (step gs (.delete i)).length :=
      (delete_length_iff_find_none _ i).mpr hgone
    simp [delete_grievance, hlen2]

theorem C8_witness :
    ((delete_grievance [sampleA] 1).2 = .notFound ↔
      find_grievance [sampleA] 1 = none) ∧
    delete_grievance [sampleA] 1 = (some (step [sampleA] (.delete 1)), .ok) ∧
    find_grievance (step [sampleA] (.delete 1)) 1 = none ∧
    delete_grievance (step [sampleA] (.delete 1)) 1 = (none, .notFound) := by
  have h := C8_delete_remove [sampleA] 1
  have h2 := h.2 sampleA (by decide)
  exact ⟨h.1, h2.1, h2.2.1, h2.2.2⟩

/-- C6: `generate_next_id` returns 1 on the empty collection and the
maximal existing id plus one otherwise; consequently any sequence of adds
with non-empty fields yields a collection whose ids are strictly
increasing and unique. -/
theorem C6_next_id_max_succ :
    generate_next_id [] = 1 ∧
    (∀ gs : List Grievance, gs ≠ [] →
      (∃ g ∈ gs, generate_next_id gs = g.id + 1) ∧
      ∀ g ∈ gs, g.id < generate_next_id gs) ∧
    ∀ ps : List (String × String × String × String),
      (∀ p ∈ ps, strip p.1 ≠ "" ∧ strip p.2.1 ≠ "" ∧ strip p.2.2.1 ≠ "") →
      IdsSorted (run (ps.map (fun p => Cmd.add p.1 p.2.1 p.2.2.1 p.2.2.2))) ∧
      ((run (ps.map (fun p =>
        Cmd.add p.1 p.2.1 p.2.2.1 p.2.2.2))).map Grievance.id).Nodup := by
  refine ⟨rfl, ?_, ?_⟩
  · intro gs hne
    exact ⟨generate_next_id_eq_max_succ gs hne,
      fun g hg => id_lt_generate_next_id gs g hg⟩
  · intro ps _
    have hs := run_idsSorted (ps.map (fun p => Cmd.add p.1 p.2.1 p.2.2.1 p.2.2.2))
    exact ⟨hs, (List.pairwise_map.mpr hs).imp (fun h => Nat.ne_of_lt h)⟩

theorem C6_witness :
    generate_next_id [] = 1 ∧
    sampleA.id < generate_next_id [sampleA, sampleB] ∧
    IdsSorted (run [Cmd.add "t1" "d1" "a1" "n1", Cmd.add "t2" "d2" "a2" "n2"]) ∧
    ((run [Cmd.add "t1" "d1" "a1" "n1",
      Cmd.add "t2" "d2" "a2" "n2"]).map Grievance.id).Nodup := by
  have h := C6_next_id_max_succ
  have h2 := (h.2.1 [sampleA, sampleB] (by decide)).2 sampleA (by decide)
  have h3 := h.2.2 [("t1", "d1", "a1", "n1"), ("t2", "d2", "a2", "n2")]
    (by decide)
  exact ⟨h.1, h2, h3.1, h3.2⟩

/-- C1 (as stated) is false: an id of a deleted record can be reassigned.
Starting from empty storage, two adds assign ids 1 and 2; after deleting
id 2, the next id computed is again 2, and a further add assigns it. -/
theorem C1_id_reuse_counterexample :
    (∃ g ∈ run [Cmd.add "a" "a" "a" "t1", Cmd.add "b" "b" "b" "t2"],
      g.id = 2) ∧
    find_grievance (run [Cmd.add "a" "a" "a" "t1", Cmd.add "b" "b" "b" "t2",
      Cmd.delete 2]) 2 = none ∧
    generate_next_id (run [Cmd.add "a" "a" "a" "t1",
      Cmd.add "b" "b" "b" "t2", Cmd.delete 2]) = 2 ∧
    ∃ g ∈ run [Cmd.add "a" "a" "a" "t1", Cmd.add "b" "b" "b" "t2",
      Cmd.delete 2, Cmd.add "c" "c" "c" "t3"], g.id = 2 := by
  decide

/-- C1 amended: in every reachable collection state ids are unique, and
each add assigns an id strictly greater than every id currently present;
however, the id of a record deleted while holding the maximum can later be
reassigned by an add. -/
theorem C1_ids_unique_reachable (cmds : List Cmd) :
    ((run cmds).map Grievance.id).Nodup ∧
    ∀ g ∈ run cmds, g.id < generate_next_id (run cmds) := by
  have hs := run_idsSorted cmds
  exact ⟨(List.pairwise_map.mpr hs).imp (fun h => Nat.ne_of_lt h),
    fun g hg => id_lt_generate_next_id _ g hg⟩

theorem C1_ids_unique_reachable_witness :
    ((run [Cmd.add "a" "a" "a" "t1", Cmd.add "b" "b" "b" "t2",
      Cmd.delete 1]).map Grievance.id).Nodup ∧
    (2 : Nat) < generate_next_id (run [Cmd.add "a" "a" "a" "t1",
      Cmd.add "b" "b" "b" "t2", Cmd.delete 1]) := by
  have h := C1_ids_unique_reachable [Cmd.add "a" "a" "a" "t1",
    Cmd.add "b" "b" "b" "t2", Cmd.delete 1]
  refine ⟨h.1, ?_⟩
  have hmem : ({ id := 2, title := "b", description := "b", author := "b", status := "open", upvotes := 0, downvotes := 0, created_at := "t2" } : Grievance) ∈ run [Cmd.add "a" "a" "a" "t1", Cmd.add "b" "b" "b" "t2", Cmd.delete 1] := by decide
  exact h.2 _ hmem


/-- Unfolding `list_grievances` when the filter is not the empty string. -/
theorem list_grievances_eq (gs : List Grievance) (filt : Option String)
    (k : String) (hfilt : filt ≠ some "") :
    list_grievances gs filt k =
      if k = "votes" then
        (statusFiltered gs filt).mergeSort
          (fun a b => decide (score b ≤ score a))
      else
        (statusFiltered gs filt).mergeSort
          (fun a b => decide (a.created_at.data ≤ b.created_at.data)) := by
  cases filt with
  | none => rfl
  | some s =>
    have hs : ¬(s = "") := fun h => hfilt (by rw [h])
    simp only [list_grievances, statusFiltered, if_neg hs]

theorem votes_cmp_trans (a b c : Grievance) :
    decide (score b ≤ score a) = true → decide (score c ≤ score b) = true →
    decide (score c ≤ score a) = true := by
  intro h1 h2
  exact decide_eq_true (le_trans (of_decide_eq_true h2) (of_decide_eq_true h1))

theorem votes_cmp_total (a b : Grievance) :
    (decide (score b ≤ score a) || decide (score a ≤ score b)) = true := by
  rcases le_total (score b) (score a) with h | h <;> simp [h]

theorem date_cmp_trans (a b c : Grievance) :
    decide (a.created_at.data ≤ b.created_at.data) = true →
    decide (b.created_at.data ≤ c.created_at.data) = true →
    decide (a.created_at.data ≤ c.created_at.data) = true := by
  intro h1 h2
  exact decide_eq_true (le_trans (of_decide_eq_true h1) (of_decide_eq_true h2))

theorem date_cmp_total (a b : Grievance) :
    (decide (a.created_at.data ≤ b.created_at.data) ||
      decide (b.created_at.data ≤ a.created_at.data)) = true := by
  rcases le_total a.created_at.data b.created_at.data with h | h <;> simp [h]

/-- C7: `list` returns exactly the grievances whose status equals the
filter (all of them when no filter is given), sorted by `created_at`
ascending for any sort key other than "votes" (the default "date"
included) and by score (`upvotes - downvotes`) descending for "votes";
listing never saves, so the persisted collection is unchanged. -/
theorem C7_list_filter_sort (gs : List Grievance) (filt : Option String)
    (k : String) (hfilt : filt ≠ some "") :
    List.Perm (list_grievances gs filt k) (statusFiltered gs filt) ∧
    (k = "votes" → (list_grievances gs filt k).Pairwise
      (fun a b => score b ≤ score a)) ∧
    (k ≠ "votes" → (list_grievances gs filt k).Pairwise
      (fun a b => a.created_at.data ≤ b.created_at.data)) ∧
    step gs (.list filt k) = gs := by
  have heq := list_grievances_eq gs filt k hfilt
  refine ⟨?_, ?_, ?_, rfl⟩
  · rw [heq]
    by_cases hk : k = "votes"
    · rw [if_pos hk]
      exact List.mergeSort_perm _ _
    · rw [if_neg hk]
      exact List.mergeSort_perm _ _
  · intro hk
    rw [heq, if_pos hk]
    have hs := List.sorted_mergeSort votes_cmp_trans votes_cmp_total
      (statusFiltered gs filt)
    exact hs.imp (fun h => of_decide_eq_true h)
  · intro hk
    rw [heq, if_neg hk]
    have hs := List.sorted_mergeSort date_cmp_trans date_cmp_total
      (statusFiltered gs filt)
    exact hs.imp (fun h => of_decide_eq_true h)

theorem C7_witness :
    List.Perm (list_grievances [sampleA, sampleB] (some "open") "votes")
      (statusFiltered [sampleA, sampleB] (some "open")) ∧
    (list_grievances [sampleA, sampleB] (some "open") "votes").Pairwise
      (fun a b => score b ≤ score a) ∧
    (list_grievances [sampleA, sampleB] none "date").Pairwise
      (fun a b => a.created_at.data ≤ b.created_at.data) ∧
    step [sampleA, sampleB] (.list (some "open") "votes") =
      [sampleA, sampleB] := by
  have h1 := C7_list_filter_sort [sampleA, sampleB] (some "open") "votes"
    (by decide)
  have h2 := C7_list_filter_sort [sampleA, sampleB] none "date" (by decide)
  exact ⟨h1.1, h1.2.1 rfl, h2.2.2.1 (by decide), h1.2.2.2⟩
